import Mathlib

/-!
Shallow embedding of the B2B inventory-ordering platform's core logic:
the supermarket dashboard's cart manager and order submitter
(frontend/src/pages/SupermarketDashboard.js) and the supplier-side
buyer aggregation endpoint (controllers/supermarketController.js).

JS numbers that matter here are modelled as rationals; a JS number that
may be NaN is modelled by `JsNum`.  Absent object fields are modelled
with `Option`.  JS truthiness of strings ("" is falsy) is modelled
explicitly where the source relies on it.
-/

namespace B2B

/-- A JS numeric value: either NaN (falsy, non-finite) or a finite number. -/
inductive JsNum where
  | nan : JsNum
  | fin (q : ℚ) : JsNum
deriving DecidableEq

/-- Coercion `Number(v || 0)` applied to an optional numeric field:
NaN, 0 and an absent value are all falsy, so they coerce to 0. -/
def priceNum : Option JsNum → ℚ
  | some (JsNum.fin q) => q
  | _ => 0

/-- A catalog product as the dashboard sees it.  The supplier identifier may
live under any of the aliases `supplier_id`, `supplierId`, `supplier._id`
(populated object) or `supplier` (plain id string); each may be absent. -/
structure Product where
  _id : Option String
  price : Option JsNum
  supplier_id : Option String
  supplierId : Option String
  supplierDotId : Option String
  supplierRaw : Option String
deriving DecidableEq

/-- JS truthiness for an optional string: absent and `""` are falsy. -/
def strTruthy : Option String → Bool
  | some s => s != ""
  | none => false

/-- JS `x || y` for optional strings: keep `x` when it is a truthy string,
otherwise fall through to `y`. -/
def jsOr (x y : Option String) : Option String :=
  if strTruthy x then x else y

/-- Source `getProductSupplierId`:
`p?.supplier_id || p?.supplierId || p?.supplier?._id || p?.supplier || null`. -/
def getProductSupplierId (p : Product) : Option String :=
  jsOr p.supplier_id (jsOr p.supplierId (jsOr p.supplierDotId (jsOr p.supplierRaw none)))

/-- A cart line: `{ product, qty }`. -/
structure CartLine where
  product : Product
  qty : ℚ
deriving DecidableEq

/-- The cart state: the `cart` array of the dashboard. -/
abbrev Cart := List CartLine

/-- Source `cartSupplierId`: `null` for an empty cart, otherwise the resolved
supplier id of the first line's product. -/
def cartSupplierId (c : Cart) : Option String :=
  match c with
  | [] => none
  | x :: _ => getProductSupplierId x.product

/-- Source `cartTotal`:
`cart.reduce((sum, x) => sum + Number(x.product?.price || 0) * Number(x.qty || 0), 0)`.
Line quantities are always finite numbers, so `Number(x.qty || 0) = x.qty`. -/
def cartTotal (c : Cart) : ℚ :=
  c.foldl (fun sum x => sum + priceNum x.product.price * x.qty) 0

/-- Observer: the quantity of the (first) cart line for a given product id,
as read back by the cart table. -/
def findLineQty (pid : Option String) (c : Cart) : Option ℚ :=
  (c.find? (fun x => x.product._id == pid)).map (fun x => x.qty)

/-- Validation errors raised by `addToCart` (surfaced via `setErr`). -/
inductive CartError where
  | NoSupplierError : CartError
  | MixedSupplierError : CartError
deriving DecidableEq

/-- The cart updater inside `addToCart`'s `setCart`: bump the first line whose
product `_id` matches (capped at 999), otherwise append a fresh line of
quantity 1. -/
def addLine (p : Product) : Cart → Cart
  | [] => [⟨p, 1⟩]
  | x :: xs =>
    if x.product._id == p._id then ⟨x.product, min 999 (x.qty + 1)⟩ :: xs
    else x :: addLine p xs

/-- Source `addToCart`: reject a product without a resolvable supplier id;
reject a supplier different from the cart's current one; otherwise update the
cart through `addLine`. -/
def addToCart (p : Product) (c : Cart) : Except CartError Cart :=
  let supplierId := getProductSupplierId p
  if ¬ strTruthy supplierId then Except.error CartError.NoSupplierError
  else if strTruthy (cartSupplierId c) ∧ supplierId ≠ cartSupplierId c then
    Except.error CartError.MixedSupplierError
  else Except.ok (addLine p c)

/-- Source `updateQty`: a non-finite `Number(qty)` is silently ignored;
otherwise every matching line's quantity becomes `Math.max(0, n)` and lines
with non-positive quantity are dropped. -/
def updateQty (pid : Option String) (n : JsNum) (c : Cart) : Cart :=
  match n with
  | JsNum.nan => c
  | JsNum.fin q =>
    (c.map (fun x => if x.product._id == pid then ⟨x.product, max 0 q⟩ else x)).filter
      (fun x => 0 < x.qty)

/-- Source `incQty`: matching lines go to `Math.min(999, qty + 1)`; no filter. -/
def incQty (pid : Option String) (c : Cart) : Cart :=
  c.map (fun x => if x.product._id == pid then ⟨x.product, min 999 (x.qty + 1)⟩ else x)

/-- Source `decQty`: matching lines go to `Math.max(0, qty - 1)` and lines with
non-positive quantity are dropped. -/
def decQty (pid : Option String) (c : Cart) : Cart :=
  (c.map (fun x => if x.product._id == pid then ⟨x.product, max 0 (x.qty - 1)⟩ else x)).filter
    (fun x => 0 < x.qty)

/-- The checkout fields passed to `placeOrder` as `extra`; each may be absent. -/
structure ExtraDetails where
  delivery_address : Option String
  delivery_date : Option String
  payment_method : Option String
  note : Option String

/-- JS `x || d` producing a string: falsy `x` (absent or `""`) yields `d`. -/
def strOr (x : Option String) (d : String) : String :=
  match x with
  | some s => if s = "" then d else s
  | none => d

/-- One item line of the POSTed order payload. -/
structure OrderItem where
  product_id : Option String
  qty : ℚ
  price : Option JsNum
deriving DecidableEq

/-- The order-creation request body built by `placeOrder`. -/
structure OrderPayload where
  supplier_id : String
  items : List OrderItem
  delivery_address : String
  delivery_date : String
  payment_method : String
  note : String
  total_amount : ℚ
deriving DecidableEq

/-- Payload construction inside `placeOrder` (after its guards). -/
def mkPayload (c : Cart) (sid : String) (extra : ExtraDetails) : OrderPayload where
  supplier_id := sid
  items := c.map (fun x => ⟨x.product._id, x.qty, x.product.price⟩)
  delivery_address := strOr extra.delivery_address ""
  delivery_date := strOr extra.delivery_date ""
  payment_method := strOr extra.payment_method ("cash")
  note := strOr extra.note ""
  total_amount := cartTotal c

/-- Validation errors of the submission flow. -/
inductive SubmitError where
  | EmptyCartError : SubmitError
  | MissingSupplierError : SubmitError
  | MissingAddressError : SubmitError
deriving DecidableEq

/-- Outcome of a submission attempt: a local validation failure (nothing
sent), or a POSTed payload that the backend rejected or accepted. -/
inductive SubmitOutcome where
  | failed (e : SubmitError) : SubmitOutcome
  | rejected (pl : OrderPayload) : SubmitOutcome
  | accepted (pl : OrderPayload) : SubmitOutcome
deriving DecidableEq

/-- Source `placeOrder`: empty-cart guard, supplier guard, then POST of the
payload.  The backend's verdict is abstracted by `accept`.  On acceptance the
cart is cleared (`clearCart`); on any failure it is left as it was. -/
def placeOrder (c : Cart) (extra : ExtraDetails) (accept : OrderPayload → Bool) :
    Cart × SubmitOutcome :=
  if c.length = 0 then (c, SubmitOutcome.failed SubmitError.EmptyCartError)
  else if ¬ strTruthy (cartSupplierId c) then
    (c, SubmitOutcome.failed SubmitError.MissingSupplierError)
  else
    let pl := mkPayload c ((cartSupplierId c).getD "") extra
    if accept pl then ([], SubmitOutcome.accepted pl)
    else (c, SubmitOutcome.rejected pl)

/-- JS `!s.trim()`: true iff the string is empty or whitespace-only
(trimming leaves the empty string exactly when every character is
whitespace). -/
def strBlank (s : String) : Bool := s.toList.all Char.isWhitespace

/-- Source confirm-button handler: validates the delivery address, then the
cart supplier, then delegates to `placeOrder` with the checkout form fields. -/
def confirmOrder (c : Cart) (addr date pm note : String)
    (accept : OrderPayload → Bool) : Cart × SubmitOutcome :=
  if strBlank addr then (c, SubmitOutcome.failed SubmitError.MissingAddressError)
  else if ¬ strTruthy (cartSupplierId c) then
    (c, SubmitOutcome.failed SubmitError.MissingSupplierError)
  else placeOrder c ⟨some addr, some date, some pm, some note⟩ accept

/-- The payment methods offered by the checkout select element. -/
def paymentOptions : List String := ["cash", "bank", "card"]

/-- Reachable values of the `paymentMethod` state: initialised to `"cash"`,
set only through the select element's options, reset to `"cash"` by
`clearCart`. -/
inductive PmReachable : String → Prop
  | init : PmReachable "cash"
  | select (s : String) : s ∈ paymentOptions → PmReachable s
  | cleared : PmReachable "cash"

/-- Cart-mutating operations of the dashboard session. -/
inductive Op where
  | add (p : Product) : Op
  | setQ (pid : Option String) (n : JsNum) : Op
  | inc (pid : Option String) : Op
  | dec (pid : Option String) : Op
  | clear : Op
  | confirm (addr date pm note : String) (accept : OrderPayload → Bool) : Op

/-- Effect of one operation on the cart state (a failed `addToCart` leaves
the cart untouched). -/
def applyOp (op : Op) (c : Cart) : Cart :=
  match op with
  | Op.add p =>
    match addToCart p c with
    | Except.ok c2 => c2
    | Except.error _ => c
  | Op.setQ pid n => updateQty pid n c
  | Op.inc pid => incQty pid c
  | Op.dec pid => decQty pid c
  | Op.clear => []
  | Op.confirm addr date pm note accept => (confirmOrder c addr date pm note accept).1

/-- Cart states reachable from the initial empty cart. -/
inductive Reachable : Cart → Prop
  | init : Reachable []
  | step (c : Cart) (op : Op) : Reachable c → Reachable (applyOp op c)

/-! Supplier-side buyer aggregation (`getSupplierBuyers`). -/

/-- An order document as stored by the backend. -/
structure OrderDoc where
  supplier : String
  supermarket : String
  totalAmount : ℚ
  createdAt : ℕ
deriving DecidableEq

/-- One row of the `$match`/`$group`/`$sort` pipeline output. -/
structure BuyerRow where
  _id : String
  totalOrders : ℕ
  totalRevenue : ℚ
  lastOrderDate : ℕ
deriving DecidableEq

/-- A supermarket record of the buyer directory. -/
structure Supermarket where
  _id : String
  name : String
  contactEmail : String
  address : String
deriving DecidableEq

/-- One element of the endpoint's response. -/
structure BuyerSummary where
  supermarketId : String
  name : String
  contactEmail : String
  address : String
  totalOrders : ℕ
  totalRevenue : ℚ
  lastOrderDate : ℕ
deriving DecidableEq

/-- The `$match` stage: orders whose `supplier` equals the requesting id. -/
def matchedOrders (sid : String) (orders : List OrderDoc) : List OrderDoc :=
  orders.filter (fun o => o.supplier == sid)

/-- Group keys of the `$group` stage: the distinct `supermarket` values, in
first-occurrence order. -/
def groupKeys (l : List OrderDoc) : List String :=
  (l.map (fun o => o.supermarket)).dedup

/-- One `$group` row for key `k`: `$sum: 1`, `$sum: "$totalAmount"`,
`$max: "$createdAt"` over the orders of that buyer. -/
def mkRow (l : List OrderDoc) (k : String) : BuyerRow where
  _id := k
  totalOrders := (l.filter (fun o => o.supermarket == k)).length
  totalRevenue := ((l.filter (fun o => o.supermarket == k)).map (fun o => o.totalAmount)).sum
  lastOrderDate :=
    ((l.filter (fun o => o.supermarket == k)).map (fun o => o.createdAt)).foldr max 0

/-- The `$group` stage output. -/
def groupRows (l : List OrderDoc) : List BuyerRow :=
  (groupKeys l).map (mkRow l)

/-- The `$sort: { totalRevenue: -1 }` key: descending summed revenue. -/
def rowRevGe (a b : BuyerRow) : Prop := b.totalRevenue ≤ a.totalRevenue

instance : DecidableRel rowRevGe := fun a b =>
  inferInstanceAs (Decidable (b.totalRevenue ≤ a.totalRevenue))

instance : IsTotal BuyerRow rowRevGe :=
  ⟨fun a b => (le_total b.totalRevenue a.totalRevenue).imp id id⟩

instance : IsTrans BuyerRow rowRevGe :=
  ⟨fun _ _ _ hab hbc => le_trans hbc hab⟩

/-- The full pipeline: match, group, sort by revenue descending. -/
def aggregateRows (sid : String) (orders : List OrderDoc) : List BuyerRow :=
  List.insertionSort rowRevGe (groupRows (matchedOrders sid orders))

/-- Lookup in the JS `Map` built from the directory query results; with
duplicate keys the later entry wins, hence the reverse. -/
def mapGet (ms : List Supermarket) (rid : String) : Option Supermarket :=
  ms.reverse.find? (fun m => m._id == rid)

/-- Source `getSupplierBuyers`: run the pipeline, fetch the mentioned
supermarkets, and join, substituting `"Unknown"` and empty contact fields
when the buyer record is missing (`sm?.name || "Unknown"` etc.). -/
def getSupplierBuyers (sid : String) (orders : List OrderDoc)
    (dir : List Supermarket) : List BuyerSummary :=
  let rows := aggregateRows sid orders
  let supermarketIds := rows.map (fun r => r._id)
  let markets := dir.filter (fun m => supermarketIds.contains m._id)
  rows.map (fun r =>
    let sm := mapGet markets r._id
    { supermarketId := r._id
      name := strOr (sm.map (fun m => m.name)) ("Unknown")
      contactEmail := strOr (sm.map (fun m => m.contactEmail)) ""
      address := strOr (sm.map (fun m => m.address)) ""
      totalOrders := r.totalOrders
      totalRevenue := r.totalRevenue
      lastOrderDate := r.lastOrderDate })

/-- Invariant of the dashboard's cart state: positive quantities, and all
lines share one resolvable (truthy) supplier id. -/
def GoodCart (c : Cart) : Prop :=
  ∀ x ∈ c, 0 < x.qty ∧ strTruthy (getProductSupplierId x.product) = true ∧
    ∀ y ∈ c, getProductSupplierId x.product = getProductSupplierId y.product

/-! Concrete fixtures used by witnesses and counterexamples. -/

/-- A product of supplier S1. -/
def prodA : Product := ⟨some "A", some (JsNum.fin 10), some "S1", none, none, none⟩

/-- A product of supplier S2. -/
def prodB : Product := ⟨some "B", some (JsNum.fin 5), some "S2", none, none, none⟩

/-- A product with no supplier information at all. -/
def prodN : Product := ⟨some "N", some (JsNum.fin 3), none, none, none, none⟩

/-- Concrete order fixtures (the spec's SUP1 example). -/
def ordersEx : List OrderDoc :=
  [⟨"SUP1", "SM1", 100, 1⟩, ⟨"SUP1", "SM1", 50, 2⟩, ⟨"SUP1", "SM2", 75, 3⟩]

/-! Helper lemmas. -/

theorem strTruthy_some_iff (s : String) : strTruthy (some s) = true ↔ s ≠ "" := by
  simp [strTruthy]

theorem jsOr_ne_some_empty (x y : Option String) (hy : y ≠ some "") :
    jsOr x y ≠ some "" := by
  unfold jsOr
  split
  · next h =>
    intro hx
    rw [hx] at h
    simp [strTruthy] at h
  · exact hy

theorem gpsid_ne_some_empty (p : Product) : getProductSupplierId p ≠ some "" := by
  unfold getProductSupplierId
  exact jsOr_ne_some_empty _ _ (jsOr_ne_some_empty _ _ (jsOr_ne_some_empty _ _
    (jsOr_ne_some_empty _ _ (by simp))))

theorem strTruthy_gpsid (p : Product) (s : String) (h : getProductSupplierId p = some s) :
    strTruthy (getProductSupplierId p) = true := by
  rw [h, strTruthy_some_iff]
  intro hs
  exact gpsid_ne_some_empty p (hs ▸ h)

theorem cartSupplierId_cons (x : CartLine) (xs : Cart) :
    cartSupplierId (x :: xs) = getProductSupplierId x.product := rfl

theorem addLine_of_not_mem (p : Product) :
    ∀ (c : Cart), (∀ x ∈ c, ¬ x.product._id = p._id) → addLine p c = c ++ [⟨p, 1⟩]
  | [], _ => rfl
  | x :: xs, h => by
    have hx : ¬ x.product._id = p._id := h x (by simp)
    simp only [addLine, beq_iff_eq, if_neg hx, List.cons_append, List.cons.injEq, true_and]
    exact addLine_of_not_mem p xs (fun y hy => h y (by simp [hy]))

theorem addLine_first_match (p : Product) (x : CartLine) (post : Cart)
    (hx : x.product._id = p._id) :
    ∀ (pre : Cart), (∀ y ∈ pre, ¬ y.product._id = p._id) →
      addLine p (pre ++ x :: post) = pre ++ ⟨x.product, min 999 (x.qty + 1)⟩ :: post
  | [], _ => by simp [addLine, hx]
  | y :: pre, h => by
    have hy : ¬ y.product._id = p._id := h y (by simp)
    simp only [List.cons_append, addLine, beq_iff_eq, if_neg hy, List.cons.injEq, true_and]
    exact addLine_first_match p x post hx pre (fun z hz => h z (by simp [hz]))

theorem mem_addLine (p : Product) :
    ∀ (c : Cart) (y : CartLine), y ∈ addLine p c →
      y ∈ c ∨ (∃ x ∈ c, y = ⟨x.product, min 999 (x.qty + 1)⟩) ∨ y = ⟨p, 1⟩
  | [], y, hy => by
    simp [addLine] at hy
    exact Or.inr (Or.inr hy)
  | x :: xs, y, hy => by
    by_cases hx : x.product._id = p._id
    · simp only [addLine, beq_iff_eq, if_pos hx, List.mem_cons] at hy
      rcases hy with hy | hy
      · exact Or.inr (Or.inl ⟨x, by simp, hy⟩)
      · exact Or.inl (by simp [hy])
    · simp only [addLine, beq_iff_eq, if_neg hx, List.mem_cons] at hy
      rcases hy with hy | hy
      · exact Or.inl (by simp [hy])
      · rcases mem_addLine p xs y hy with h | ⟨z, hz, hzy⟩ | h
        · exact Or.inl (by simp [h])
        · exact Or.inr (Or.inl ⟨z, by simp [hz], hzy⟩)
        · exact Or.inr (Or.inr h)

theorem foldl_add_map (g : CartLine → ℚ) :
    ∀ (l : List CartLine) (a : ℚ),
      l.foldl (fun s x => s + g x) a = a + (l.map g).sum
  | [], a => by simp
  | x :: xs, a => by
    simp only [List.foldl_cons, List.map_cons, List.sum_cons]
    rw [foldl_add_map g xs (a + g x)]
    ring

theorem le_foldr_max : ∀ (l : List ℕ), ∀ x ∈ l, x ≤ l.foldr max 0
  | [], x, hx => by simp at hx
  | a :: l, x, hx => by
    rcases List.mem_cons.1 hx with h | h
    · simp [h, le_max_iff]
    · simp only [List.foldr_cons, le_max_iff]
      exact Or.inr (le_foldr_max l x h)

theorem foldr_max_mem : ∀ (l : List ℕ), l ≠ [] → l.foldr max 0 ∈ l
  | [], h => absurd rfl h
  | [a], _ => by simp
  | a :: b :: l, _ => by
    rcases max_choice a ((b :: l).foldr max 0) with h | h
    · simp only [List.foldr_cons] at h ⊢
      rw [h]
      simp
    · simp only [List.foldr_cons] at h ⊢
      rw [h]
      exact List.mem_cons_of_mem a (foldr_max_mem (b :: l) (by simp))

theorem forall₂_map_self {α β : Type} (R : α → β → Prop) (f : α → β) :
    ∀ (l : List α), (∀ x ∈ l, R x (f x)) → List.Forall₂ R l (l.map f)
  | [], _ => List.Forall₂.nil
  | x :: xs, h =>
    List.Forall₂.cons (h x (by simp))
      (forall₂_map_self R f xs (fun y hy => h y (by simp [hy])))

/-! The cart invariant: every reachable cart has positive quantities and all
its lines share one resolvable supplier id. -/

theorem goodCart_nil : GoodCart [] := by simp [GoodCart]

theorem goodCart_of_lines (c c2 : Cart)
    (h : ∀ y ∈ c2, ∃ x ∈ c, y.product = x.product ∧ (0 < x.qty → 0 < y.qty))
    (hg : GoodCart c) : GoodCart c2 := by
  intro y hy
  obtain ⟨x, hx, hprod, hq⟩ := h y hy
  obtain ⟨hxq, hxs, hxp⟩ := hg x hx
  refine ⟨hq hxq, by rw [hprod]; exact hxs, ?_⟩
  intro z hz
  obtain ⟨w, hw, hwprod, _⟩ := h z hz
  rw [hprod, hwprod]
  exact hxp w hw

theorem goodCart_updateQty (c : Cart) (pid : Option String) (n : JsNum)
    (hg : GoodCart c) : GoodCart (updateQty pid n c) := by
  cases n with
  | nan => exact hg
  | fin q =>
    refine goodCart_of_lines c _ (fun y hy => ?_) hg
    simp only [updateQty, List.mem_filter, List.mem_map, decide_eq_true_eq] at hy
    obtain ⟨⟨x, hx, hxy⟩, hq⟩ := hy
    refine ⟨x, hx, ?_, fun _ => hq⟩
    by_cases hm : x.product._id == pid <;> simp [hm] at hxy <;> simp [← hxy]

theorem goodCart_incQty (c : Cart) (pid : Option String)
    (hg : GoodCart c) : GoodCart (incQty pid c) := by
  refine goodCart_of_lines c _ (fun y hy => ?_) hg
  simp only [incQty, List.mem_map] at hy
  obtain ⟨x, hx, hxy⟩ := hy
  by_cases hm : x.product._id == pid
  · simp only [if_pos hm] at hxy
    refine ⟨x, hx, by simp [← hxy], fun hq => ?_⟩
    rw [← hxy]
    exact lt_min (by norm_num) (by linarith)
  · simp only [if_neg hm] at hxy
    exact ⟨x, hx, by simp [← hxy], fun hq => by simp [← hxy, hq]⟩

theorem goodCart_decQty (c : Cart) (pid : Option String)
    (hg : GoodCart c) : GoodCart (decQty pid c) := by
  refine goodCart_of_lines c _ (fun y hy => ?_) hg
  simp only [decQty, List.mem_filter, List.mem_map, decide_eq_true_eq] at hy
  obtain ⟨⟨x, hx, hxy⟩, hq⟩ := hy
  refine ⟨x, hx, ?_, fun _ => hq⟩
  by_cases hm : x.product._id == pid <;> simp [hm] at hxy <;> simp [← hxy]

theorem addToCart_ok_same_supplier (c : Cart) (p : Product) (c2 : Cart)
    (hg : GoodCart c) (hok : addToCart p c = Except.ok c2) :
    strTruthy (getProductSupplierId p) = true ∧
      (c ≠ [] → getProductSupplierId p = cartSupplierId c) ∧ c2 = addLine p c := by
  simp only [addToCart] at hok
  split at hok
  · exact absurd hok (by simp)
  · next hns =>
    split at hok
    · exact absurd hok (by simp)
    · next hmix =>
      rw [not_not] at hns
      refine ⟨hns, fun hne => ?_, by injection hok with h; exact h.symm⟩
      match c, hne with
      | x :: xs, _ =>
        have hx := hg x (by simp)
        rw [not_and] at hmix
        have := hmix (by rw [cartSupplierId_cons]; exact hx.2.1)
        rw [not_not] at this
        exact this

theorem goodCart_addToCart (c : Cart) (p : Product) (c2 : Cart)
    (hg : GoodCart c) (hok : addToCart p c = Except.ok c2) : GoodCart c2 := by
  obtain ⟨hps, hsup, hc2⟩ := addToCart_ok_same_supplier c p c2 hg hok
  subst hc2
  cases c with
  | nil =>
    intro y hy
    simp only [addLine, List.mem_singleton] at hy
    subst hy
    refine ⟨by norm_num, hps, ?_⟩
    intro z hz
    simp only [addLine, List.mem_singleton] at hz
    subst hz
    rfl
  | cons w ws =>
    have hpw : getProductSupplierId p = getProductSupplierId w.product := by
      rw [hsup (by simp), cartSupplierId_cons]
    have key : ∀ y ∈ addLine p (w :: ws),
        0 < y.qty ∧ getProductSupplierId y.product = getProductSupplierId p := by
      intro y hy
      rcases mem_addLine p (w :: ws) y hy with h | ⟨x, hx, hxy⟩ | h
      · have hxg := hg y h
        refine ⟨hxg.1, ?_⟩
        rw [hpw]
        exact hxg.2.2 w (by simp)
      · have hxg := hg x hx
        constructor
        · rw [hxy]
          exact lt_min (by norm_num) (by linarith [hxg.1])
        · rw [hxy]
          show getProductSupplierId x.product = getProductSupplierId p
          rw [hpw]
          exact hxg.2.2 w (by simp)
      · subst h
        exact ⟨by norm_num, rfl⟩
    intro y hy
    obtain ⟨hyq, hys⟩ := key y hy
    refine ⟨hyq, by rw [hys]; exact hps, ?_⟩
    intro z hz
    rw [hys, (key z hz).2]

theorem confirmOrder_fst (c : Cart) (addr date pm note : String)
    (accept : OrderPayload → Bool) :
    (confirmOrder c addr date pm note accept).1 = c ∨
      (confirmOrder c addr date pm note accept).1 = [] := by
  simp only [confirmOrder, placeOrder]
  repeat' split
  all_goals simp

theorem reachable_good (c : Cart) (h : Reachable c) : GoodCart c := by
  induction h with
  | init => exact goodCart_nil
  | step c op hr ih =>
    cases op with
    | add p =>
      simp only [applyOp]
      split
      · next c2 heq => exact goodCart_addToCart c p c2 ih heq
      · exact ih
    | setQ pid n => exact goodCart_updateQty c pid n ih
    | inc pid => exact goodCart_incQty c pid ih
    | dec pid => exact goodCart_decQty c pid ih
    | clear => exact goodCart_nil
    | confirm addr date pm note accept =>
      rcases confirmOrder_fst c addr date pm note accept with h | h
      · simp only [applyOp]
        rw [h]
        exact ih
      · simp only [applyOp]
        rw [h]
        exact goodCart_nil

theorem addToCart_ok_eq (c c2 : Cart) (p : Product)
    (hok : addToCart p c = Except.ok c2) : c2 = addLine p c := by
  simp only [addToCart] at hok
  split at hok
  · exact absurd hok (by simp)
  · split at hok
    · exact absurd hok (by simp)
    · injection hok with h
      exact h.symm

theorem reachA : Reachable [⟨prodA, 1⟩] := by
  have h0 : Reachable (applyOp (Op.add prodA) []) :=
    Reachable.step [] (Op.add prodA) Reachable.init
  have e0 : applyOp (Op.add prodA) [] = [⟨prodA, 1⟩] := rfl
  rw [e0] at h0
  exact h0

/-! Claim theorems. -/

/-- C1: for every cart state whose reference (first) line has supplier id
`csid` and every item with resolvable supplier id `sid ≠ csid`, `addToCart`
is rejected with `MixedSupplierError` and the cart state is unchanged;
consequently every reachable cart state has all lines referencing items with
the same owning-supplier identifier. -/
theorem cart_single_supplier :
    (∀ (c : Cart) (p : Product) (csid sid : String),
        cartSupplierId c = some csid → getProductSupplierId p = some sid →
        sid ≠ csid →
        addToCart p c = Except.error CartError.MixedSupplierError ∧
          applyOp (Op.add p) c = c) ∧
    (∀ c : Cart, Reachable c → ∀ x ∈ c, ∀ y ∈ c,
        getProductSupplierId x.product = getProductSupplierId y.product) := by
  constructor
  · intro c p csid sid hc hp hne
    have hps : strTruthy (getProductSupplierId p) = true := strTruthy_gpsid p sid hp
    have hcs : strTruthy (cartSupplierId c) = true := by
      rw [hc, strTruthy_some_iff]
      intro h0
      cases c with
      | nil => simp [cartSupplierId] at hc
      | cons w ws =>
        rw [cartSupplierId_cons] at hc
        exact gpsid_ne_some_empty w.product (by rw [hc, h0])
    have herr : addToCart p c = Except.error CartError.MixedSupplierError := by
      rw [hp] at hps
      rw [hc] at hcs
      simp [addToCart, hps, hc, hp, hne, hcs]
    refine ⟨herr, ?_⟩
    simp [applyOp, herr]
  · intro c hr x hx y hy
    exact ((reachable_good c hr) x hx).2.2 y hy

/-- Witness for C1: a cart holding a supplier-S1 product rejects a
supplier-S2 product, and the reachable singleton cart trivially has all
lines on one supplier. -/
theorem cart_single_supplier_witness :
    addToCart prodB [⟨prodA, 1⟩] = Except.error CartError.MixedSupplierError ∧
      getProductSupplierId (⟨prodA, 1⟩ : CartLine).product =
        getProductSupplierId (⟨prodA, 1⟩ : CartLine).product :=
  ⟨(cart_single_supplier.1 [⟨prodA, 1⟩] prodB "S1" "S2" rfl rfl (by decide)).1,
    cart_single_supplier.2 [⟨prodA, 1⟩] reachA ⟨prodA, 1⟩ (by simp) ⟨prodA, 1⟩ (by simp)⟩

/-- C5: an item with no resolvable supplier identifier is rejected with
`NoSupplierError` and the cart is unchanged; an accepted item either bumps
the first existing line with the same item identifier by 1 (capped at 999)
or is appended at the end as a new line of quantity 1. -/
theorem addToCart_behaviour :
    (∀ (c : Cart) (p : Product), getProductSupplierId p = none →
        addToCart p c = Except.error CartError.NoSupplierError ∧
          applyOp (Op.add p) c = c) ∧
    (∀ (c c2 : Cart) (p : Product), addToCart p c = Except.ok c2 →
        ((∀ x ∈ c, ¬ x.product._id = p._id) → c2 = c ++ [⟨p, 1⟩]) ∧
        (∀ (pre post : Cart) (x : CartLine), c = pre ++ x :: post →
            (∀ y ∈ pre, ¬ y.product._id = p._id) → x.product._id = p._id →
            c2 = pre ++ ⟨x.product, min 999 (x.qty + 1)⟩ :: post)) := by
  constructor
  · intro c p hp
    have hf : strTruthy (getProductSupplierId p) = false := by
      rw [hp]
      rfl
    constructor
    · simp [addToCart, hf]
    · simp [applyOp, addToCart, hf]
  · intro c c2 p hok
    have hc2 := addToCart_ok_eq c c2 p hok
    subst hc2
    constructor
    · intro h
      exact addLine_of_not_mem p c h
    · intro pre post x hc hpre hx
      subst hc
      exact addLine_first_match p x post hx pre hpre

/-- Witness for C5: a supplier-less product is rejected, and adding to the
empty cart appends a quantity-1 line. -/
theorem addToCart_behaviour_witness :
    addToCart prodN [⟨prodA, 1⟩] = Except.error CartError.NoSupplierError ∧
      ([⟨prodA, 1⟩] : Cart) = ([] : Cart) ++ [⟨prodA, 1⟩] :=
  ⟨(addToCart_behaviour.1 [⟨prodA, 1⟩] prodN rfl).1,
    (addToCart_behaviour.2 [] [⟨prodA, 1⟩] prodA rfl).1 (by simp)⟩

/-- C6: the cart total is the sum over all lines of price times quantity,
where a missing or non-numeric (NaN) price coerces to zero; the empty cart
has total 0. -/
theorem cartTotal_correct :
    cartTotal [] = 0 ∧
    (∀ c : Cart,
      cartTotal c = (c.map (fun x => priceNum x.product.price * x.qty)).sum) ∧
    (∀ v : Option JsNum, v = none ∨ v = some JsNum.nan → priceNum v = 0) := by
  refine ⟨rfl, fun c => ?_, fun v hv => ?_⟩
  · simpa [cartTotal] using
      foldl_add_map (fun x => priceNum x.product.price * x.qty) c 0
  · rcases hv with h | h <;> subst h <;> rfl

/-- Witness for C6 at a concrete two-line cart and a missing price. -/
theorem cartTotal_correct_witness :
    cartTotal [⟨prodA, 2⟩, ⟨prodB, 3⟩] =
      (([⟨prodA, 2⟩, ⟨prodB, 3⟩] : Cart).map
        (fun x => priceNum x.product.price * x.qty)).sum ∧
      priceNum none = 0 :=
  ⟨cartTotal_correct.2.1 [⟨prodA, 2⟩, ⟨prodB, 3⟩],
    cartTotal_correct.2.2 none (Or.inl rfl)⟩

/-- C3 counterexample: `updateQty` has no upper clamp — setting quantity
1000 on an existing line reads back 1000, not 999 as the claim states. -/
theorem setQuantity_no_upper_clamp_cex :
    findLineQty (some "A")
        (updateQty (some "A") (JsNum.fin 1000) [⟨prodA, 1⟩]) = some 1000 ∧
      (1000 : ℚ) ≠ 999 := by
  constructor
  · have h1 : max (0 : ℚ) 1000 = 1000 := by norm_num
    simp [updateQty, findLineQty, prodA, h1]
  · norm_num

/-- C3 (amended): after `setQuantity(itemId, q)` on a cart containing a line
for `itemId`, the line's quantity reads back as `q` for every `q > 0` (with
no upper clamp: values above 999 are stored as-is); `q ≤ 0` removes the
line; non-finite input leaves the cart unchanged. -/
theorem setQuantity_readback :
    ∀ (c : Cart) (pid : Option String) (q : ℚ),
      updateQty pid JsNum.nan c = c ∧
      ((∃ x ∈ c, x.product._id = pid) → 0 < q →
        findLineQty pid (updateQty pid (JsNum.fin q) c) = some q) ∧
      (q ≤ 0 → findLineQty pid (updateQty pid (JsNum.fin q) c) = none) := by
  intro c pid q
  refine ⟨rfl, ?_, ?_⟩
  · intro hex hq
    have hmax : max 0 q = q := max_eq_right hq.le
    induction c with
    | nil => simp at hex
    | cons x xs ih =>
      by_cases hm : x.product._id = pid
      · simp [updateQty, findLineQty, hm, hmax, hq]
      · have hex2 : ∃ y ∈ xs, y.product._id = pid := by
          rcases hex with ⟨y, hy, hyp⟩
          rcases List.mem_cons.1 hy with rfl | hy2
          · exact absurd hyp hm
          · exact ⟨y, hy2, hyp⟩
        have ihh := ih hex2
        by_cases hxq : 0 < x.qty
        · simp only [updateQty, findLineQty, List.map_cons, beq_iff_eq, if_neg hm,
            List.filter_cons, decide_eq_true_eq, if_pos hxq] at ihh ⊢
          rw [List.find?_cons_of_neg _ (by simp [hm])]
          exact ihh
        · simp only [updateQty, findLineQty, List.map_cons, beq_iff_eq, if_neg hm,
            List.filter_cons, decide_eq_true_eq, if_neg hxq] at ihh ⊢
          exact ihh
  · intro hq
    have hfind :
        ((c.map (fun x =>
            if x.product._id == pid then (⟨x.product, max 0 q⟩ : CartLine) else x)).filter
          (fun x => decide (0 < x.qty))).find? (fun x => x.product._id == pid) = none := by
      rw [List.find?_eq_none]
      intro y hy
      obtain ⟨hymem, hypos⟩ := List.mem_filter.1 hy
      obtain ⟨x, hx, hxy⟩ := List.mem_map.1 hymem
      by_cases hm : x.product._id = pid
      · rw [if_pos (by simp [hm])] at hxy
        rw [← hxy] at hypos
        simp only [decide_eq_true_eq] at hypos
        have : max 0 q = 0 := max_eq_left hq
        rw [this] at hypos
        exact absurd hypos (by norm_num)
      · rw [if_neg (by simp [hm])] at hxy
        rw [← hxy]
        simp [hm]
    simp only [updateQty, findLineQty, hfind, Option.map_none']

/-- Witness for C3 (amended): setting quantity 5 on an existing line reads
back 5, and setting 0 removes the line. -/
theorem setQuantity_readback_witness :
    findLineQty (some "A") (updateQty (some "A") (JsNum.fin 5) [⟨prodA, 1⟩]) =
        some 5 ∧
      findLineQty (some "A") (updateQty (some "A") (JsNum.fin 0) [⟨prodA, 1⟩]) =
        none :=
  ⟨(setQuantity_readback [⟨prodA, 1⟩] (some "A") 5).2.1
      ⟨⟨prodA, 1⟩, by simp, by simp [prodA]⟩ (by norm_num),
    (setQuantity_readback [⟨prodA, 1⟩] (some "A") 0).2.2 (by norm_num)⟩

theorem inc_dec_restore (pid : Option String) :
    ∀ (c : Cart), (∀ x ∈ c, 0 < x.qty) →
      (∀ x ∈ c, x.product._id = pid → x.qty + 1 ≤ 999) →
      decQty pid (incQty pid c) = c
  | [], _, _ => rfl
  | x :: xs, hpos, hle => by
    have ihx := inc_dec_restore pid xs (fun y hy => hpos y (by simp [hy]))
      (fun y hy => hle y (by simp [hy]))
    have hxpos : 0 < x.qty := hpos x (by simp)
    by_cases hm : x.product._id = pid
    · have h1 : min 999 (x.qty + 1) = x.qty + 1 := min_eq_right (hle x (by simp) hm)
      have h2 : max 0 (x.qty + 1 - 1) = x.qty := by
        rw [add_sub_cancel_right]
        exact max_eq_right hxpos.le
      simp only [incQty, decQty, List.map_cons, beq_iff_eq, if_pos hm, h1] at ihx ⊢
      simp only [List.filter_cons, decide_eq_true_eq]
      rw [h2, if_pos hxpos, ihx]
    · simp only [incQty, decQty, List.map_cons, beq_iff_eq, if_neg hm] at ihx ⊢
      simp only [List.filter_cons, decide_eq_true_eq]
      rw [if_pos hxpos, ihx]

/-- C7 (amended): on every reachable cart, increment followed by decrement
on the same item restores the cart exactly, provided every line for that
item has quantity at most 998 (no line at all included); a reachable line
with quantity in the open interval (998, 999] — fractional quantities are
reachable through `setQuantity` — comes back at 998 instead, the cap
boundary. -/
theorem inc_dec_roundtrip :
    ∀ (c : Cart) (pid : Option String), Reachable c →
      (∀ x ∈ c, x.product._id = pid → x.qty + 1 ≤ 999) →
      decQty pid (incQty pid c) = c := by
  intro c pid hr hle
  exact inc_dec_restore pid c (fun x hx => (reachable_good c hr x hx).1) hle

theorem reachHalf : Reachable [⟨prodA, (1997 : ℚ)/2⟩] := by
  have h0 : Reachable (applyOp (Op.setQ (some "A") (JsNum.fin ((1997 : ℚ)/2)))
      [⟨prodA, 1⟩]) :=
    Reachable.step [⟨prodA, 1⟩] (Op.setQ (some "A") (JsNum.fin ((1997 : ℚ)/2))) reachA
  have e1 : applyOp (Op.setQ (some "A") (JsNum.fin ((1997 : ℚ)/2))) [⟨prodA, 1⟩] =
      [⟨prodA, (1997 : ℚ)/2⟩] := by
    have hmax : max (0 : ℚ) ((1997 : ℚ)/2) = (1997 : ℚ)/2 := by norm_num
    simp [applyOp, updateQty, prodA, hmax]
  rw [e1] at h0
  exact h0

/-- C7 counterexample: the reachable cart holding quantity 998.5 — strictly
below 999 — does not return to its prior state under increment followed by
decrement: it ends at 998. -/
theorem inc_dec_roundtrip_cex :
    Reachable [⟨prodA, (1997 : ℚ)/2⟩] ∧
      (1997 : ℚ)/2 < 999 ∧
      decQty (some "A") (incQty (some "A") [⟨prodA, (1997 : ℚ)/2⟩]) ≠
        [⟨prodA, (1997 : ℚ)/2⟩] := by
  refine ⟨reachHalf, by norm_num, ?_⟩
  have hcomp : decQty (some "A") (incQty (some "A") [⟨prodA, (1997 : ℚ)/2⟩]) =
      [⟨prodA, 998⟩] := by
    have h1 : min (999 : ℚ) ((1997 : ℚ)/2 + 1) = 999 := by norm_num
    have h2 : max (0 : ℚ) ((999 : ℚ) - 1) = 998 := by norm_num
    simp [decQty, incQty, prodA, h1, h2]
    norm_num
  rw [hcomp]
  intro h
  have := List.head_eq_of_cons_eq h
  rw [CartLine.mk.injEq] at this
  have hq := this.2
  norm_num at hq

/-- Witness for C7 (amended): on the reachable singleton cart at quantity 1,
increment then decrement restores the cart. -/
theorem inc_dec_roundtrip_witness :
    decQty (some "A") (incQty (some "A") [⟨prodA, 1⟩]) = [⟨prodA, 1⟩] :=
  inc_dec_roundtrip [⟨prodA, 1⟩] (some "A") reachA
    (fun x hx _ => by
      rcases List.mem_singleton.1 hx with rfl
      norm_num)

/-- C10: on every reachable cart, `setQuantity`, `increment` and `decrement`
for an item id with no line in the cart leave the cart exactly unchanged (no
line is created), and `increment` on a line already at quantity 999 leaves
the entire cart unchanged. -/
theorem absent_line_noop :
    ∀ (c : Cart) (pid : Option String), Reachable c →
      ((∀ x ∈ c, ¬ x.product._id = pid) →
        (∀ n : JsNum, updateQty pid n c = c) ∧
          incQty pid c = c ∧ decQty pid c = c) ∧
      ((∀ x ∈ c, x.product._id = pid → x.qty = 999) → incQty pid c = c) := by
  intro c pid hr
  have hpos : ∀ x ∈ c, 0 < x.qty := fun x hx => (reachable_good c hr x hx).1
  have hfilter : c.filter (fun x => decide (0 < x.qty)) = c :=
    List.filter_eq_self.2 (fun a ha => by simp [hpos a ha])
  constructor
  · intro hno
    have hmap : ∀ (g : CartLine → ℚ),
        c.map (fun x =>
          if x.product._id == pid then (⟨x.product, g x⟩ : CartLine) else x) = c := by
      intro g
      have h : ∀ x ∈ c,
          (if x.product._id == pid then (⟨x.product, g x⟩ : CartLine) else x) = x :=
        fun x hx => by simp [hno x hx]
      rw [List.map_congr_left h]
      exact List.map_id c
    refine ⟨fun n => ?_, ?_, ?_⟩
    · cases n with
      | nan => rfl
      | fin q =>
        show (c.map _).filter _ = c
        rw [hmap (fun _ => max 0 q), hfilter]
    · show c.map _ = c
      exact hmap (fun x => min 999 (x.qty + 1))
    · show (c.map _).filter _ = c
      rw [hmap (fun x => max 0 (x.qty - 1)), hfilter]
  · intro h999
    have h : ∀ x ∈ c,
        (if x.product._id == pid then
          (⟨x.product, min 999 (x.qty + 1)⟩ : CartLine) else x) = x := by
      intro x hx
      by_cases hm : x.product._id = pid
      · rw [if_pos (by simp [hm])]
        have hq := h999 x hx hm
        rw [hq]
        have hmin : min (999 : ℚ) (999 + 1) = 999 := by norm_num
        rw [hmin, ← hq]
      · rw [if_neg (by simp [hm])]
    show c.map _ = c
    rw [List.map_congr_left h]
    exact List.map_id c

/-- Witness for C10 on the reachable singleton cart, for an item id absent
from the cart. -/
theorem absent_line_noop_witness :
    updateQty (some "Z") (JsNum.fin 7) [⟨prodA, 1⟩] = [⟨prodA, 1⟩] ∧
      incQty (some "Z") [⟨prodA, 1⟩] = [⟨prodA, 1⟩] ∧
      decQty (some "Z") [⟨prodA, 1⟩] = [⟨prodA, 1⟩] := by
  have h := absent_line_noop [⟨prodA, 1⟩] (some "Z") reachA
  have hno : ∀ x ∈ ([⟨prodA, 1⟩] : Cart), ¬ x.product._id = some "Z" := by
    intro x hx
    rcases List.mem_singleton.1 hx with rfl
    simp [prodA]
  exact ⟨(h.1 hno).1 (JsNum.fin 7), (h.1 hno).2.1, (h.1 hno).2.2⟩

/-- C4 counterexample: submitting an empty cart with a valid address fails
with `MissingSupplierError`, not `EmptyCartError` as the claim states — the
confirm handler's supplier check fires before `placeOrder`'s empty-cart
check (an empty cart has no resolvable cart supplier id). -/
theorem submit_empty_cart_error_cex :
    (confirmOrder [] "10 Main St" "" "cash" "" (fun _ => true)).2 =
      SubmitOutcome.failed SubmitError.MissingSupplierError ∧
      SubmitError.MissingSupplierError ≠ SubmitError.EmptyCartError := by
  constructor
  · rfl
  · simp

/-- C4 (amended): submission validates the delivery address first — a blank
(empty or whitespace-only) address fails with `MissingAddressError`; with a
valid address, a cart without a determinable shared supplier id (the empty
cart included) fails with `MissingSupplierError`; the `EmptyCartError`
branch is shadowed and never produced; on every validation failure and on
every rejected order-creation request the cart state is unchanged. -/
theorem submit_validation :
    ∀ (c : Cart) (addr date pm note : String) (accept : OrderPayload → Bool),
      (confirmOrder c addr date pm note accept).2 ≠
          SubmitOutcome.failed SubmitError.EmptyCartError ∧
      (strBlank addr = true →
        confirmOrder c addr date pm note accept =
          (c, SubmitOutcome.failed SubmitError.MissingAddressError)) ∧
      (strBlank addr = false → strTruthy (cartSupplierId c) = false →
        confirmOrder c addr date pm note accept =
          (c, SubmitOutcome.failed SubmitError.MissingSupplierError)) ∧
      (∀ e, (confirmOrder c addr date pm note accept).2 =
          SubmitOutcome.failed e →
        (confirmOrder c addr date pm note accept).1 = c) ∧
      (∀ pl, (confirmOrder c addr date pm note accept).2 =
          SubmitOutcome.rejected pl →
        (confirmOrder c addr date pm note accept).1 = c) := by
  intro c addr date pm note accept
  have hlen : strTruthy (cartSupplierId c) = true → ¬ c.length = 0 := by
    intro ht h0
    have hc : c = [] := List.length_eq_zero.1 h0
    rw [hc] at ht
    simp [cartSupplierId, strTruthy] at ht
  refine ⟨?_, ?_, ?_, ?_, ?_⟩
  · intro hfail
    simp only [confirmOrder, placeOrder] at hfail
    split at hfail
    · simp at hfail
    · split at hfail
      · simp at hfail
      · next hsup =>
        rw [not_not] at hsup
        split at hfail
        · exact hlen hsup (by assumption)
        · split at hfail
          · simp at hfail
          · simp at hfail
  · intro hb
    simp [confirmOrder, hb]
  · intro hb hs
    simp [confirmOrder, placeOrder, hb, hs]
  · intro e hfail
    simp only [confirmOrder, placeOrder] at hfail ⊢
    repeat' split
    all_goals simp_all
  · intro pl hrej
    simp only [confirmOrder, placeOrder] at hrej ⊢
    repeat' split
    all_goals simp_all

/-- Witness for C4 (amended): the spec's own example — a whitespace-only
delivery address fails with `MissingAddressError` and leaves the cart
unchanged. -/
theorem submit_validation_witness :
    confirmOrder [⟨prodA, 1⟩] "   " "" "cash" "" (fun _ => true) =
      ([⟨prodA, 1⟩], SubmitOutcome.failed SubmitError.MissingAddressError) :=
  (submit_validation [⟨prodA, 1⟩] "   " "" "cash" "" (fun _ => true)).2.1 rfl

theorem confirmOrder_sent_payload (c : Cart) (addr date pm note : String)
    (accept : OrderPayload → Bool) (pl : OrderPayload)
    (h : (confirmOrder c addr date pm note accept).2 = SubmitOutcome.rejected pl ∨
      (confirmOrder c addr date pm note accept).2 = SubmitOutcome.accepted pl) :
    pl = mkPayload c ((cartSupplierId c).getD "")
      ⟨some addr, some date, some pm, some note⟩ := by
  rcases h with h | h <;>
  · simp only [confirmOrder, placeOrder] at h
    repeat' split at h
    all_goals simp_all

theorem pmReachable_mem (pm : String) (h : PmReachable pm) :
    strOr (some pm) ("cash") ∈ paymentOptions := by
  cases h with
  | init => simp [strOr, paymentOptions]
  | cleared => simp [strOr, paymentOptions]
  | select _ hs =>
    by_cases h0 : pm = ""
    · subst h0
      simp [paymentOptions] at hs
    · simpa [strOr, h0] using hs

/-- C8: the order payload's payment method defaults to `"cash"` when the
checkout details leave it unset (absent or empty), and every payload sent
through the confirm flow with a reachable `paymentMethod` state carries a
payment method in the enumerated set cash, bank, card. -/
theorem payment_method_constraint :
    (∀ (c : Cart) (sid : String) (extra : ExtraDetails),
        extra.payment_method = none ∨ extra.payment_method = some "" →
        (mkPayload c sid extra).payment_method = "cash") ∧
    (∀ (c : Cart) (addr date pm note : String) (accept : OrderPayload → Bool)
        (pl : OrderPayload), PmReachable pm →
        ((confirmOrder c addr date pm note accept).2 =
            SubmitOutcome.rejected pl ∨
          (confirmOrder c addr date pm note accept).2 =
            SubmitOutcome.accepted pl) →
        pl.payment_method ∈ paymentOptions) := by
  constructor
  · intro c sid extra hset
    rcases hset with h | h <;> simp [mkPayload, strOr, h]
  · intro c addr date pm note accept pl hpm hout
    rw [confirmOrder_sent_payload c addr date pm note accept pl hout]
    exact pmReachable_mem pm hpm

/-- Witness for C8: an unset payment method yields `"cash"`, and a payload
sent with the select value `"card"` carries a listed payment method. -/
theorem payment_method_constraint_witness :
    (mkPayload [] "S1" ⟨none, none, none, none⟩).payment_method = "cash" ∧
      (mkPayload [⟨prodA, 1⟩] "S1"
        ⟨some "10 Main St", some "", some "card", some ""⟩).payment_method ∈
        paymentOptions :=
  ⟨payment_method_constraint.1 [] "S1" ⟨none, none, none, none⟩ (Or.inl rfl),
    payment_method_constraint.2 [⟨prodA, 1⟩] "10 Main St" "" "card" ""
      (fun _ => true) _ (PmReachable.select "card" (by simp [paymentOptions]))
      (Or.inr rfl)⟩

theorem mem_groupKeys (l : List OrderDoc) (k : String) :
    k ∈ groupKeys l ↔ ∃ o ∈ l, o.supermarket = k := by
  simp [groupKeys, List.mem_dedup]

theorem group_filter_eq (sid k : String) (orders : List OrderDoc) :
    (matchedOrders sid orders).filter (fun o => o.supermarket == k) =
      orders.filter (fun o => o.supplier == sid && o.supermarket == k) := by
  unfold matchedOrders
  rw [List.filter_filter]
  exact List.filter_congr (fun o _ => by rw [Bool.and_comm])

theorem groupRows_ids (l : List OrderDoc) :
    (groupRows l).map (fun r => r._id) = groupKeys l := by
  unfold groupRows
  rw [List.map_map]
  have h : ∀ k ∈ groupKeys l, ((fun r => r._id) ∘ mkRow l) k = k := fun k _ => rfl
  rw [List.map_congr_left h]
  simp

/-- C2: `buyersFor(supplierId)` considers exactly the orders whose supplier
equals the requested id, partitions them by buyer identifier (distinct group
keys, one group per buyer that actually ordered), and per group returns the
order count, the sum of `totalAmount` and the maximum `createdAt`; the
output is sorted descending by summed revenue. -/
theorem supplier_aggregation_correct :
    ∀ (sid : String) (orders : List OrderDoc),
      ((aggregateRows sid orders).map (fun r => r._id)).Nodup ∧
      (∀ k : String,
        (∃ r ∈ aggregateRows sid orders, r._id = k) ↔
          (∃ o ∈ orders, o.supplier = sid ∧ o.supermarket = k)) ∧
      (∀ r ∈ aggregateRows sid orders,
        r.totalOrders = (orders.filter
            (fun o => o.supplier == sid && o.supermarket == r._id)).length ∧
        r.totalRevenue = ((orders.filter
            (fun o => o.supplier == sid && o.supermarket == r._id)).map
              (fun o => o.totalAmount)).sum ∧
        (∀ o ∈ orders.filter
            (fun o => o.supplier == sid && o.supermarket == r._id),
          o.createdAt ≤ r.lastOrderDate) ∧
        (∃ o ∈ orders.filter
            (fun o => o.supplier == sid && o.supermarket == r._id),
          o.createdAt = r.lastOrderDate)) ∧
      List.Sorted (fun a b => b.totalRevenue ≤ a.totalRevenue)
        (aggregateRows sid orders) := by
  intro sid orders
  have hperm : (aggregateRows sid orders).Perm
      (groupRows (matchedOrders sid orders)) :=
    List.perm_insertionSort rowRevGe _
  refine ⟨?_, ?_, ?_, ?_⟩
  · have h2 := hperm.map (fun r => r._id)
    rw [groupRows_ids] at h2
    exact h2.nodup_iff.2 (List.nodup_dedup _)
  · intro k
    constructor
    · rintro ⟨r, hr, rfl⟩
      have hr2 : r ∈ groupRows (matchedOrders sid orders) := hperm.mem_iff.1 hr
      obtain ⟨k2, hk2, rfl⟩ := List.mem_map.1 hr2
      obtain ⟨o, ho, hos⟩ := (mem_groupKeys _ k2).1 hk2
      have homem := List.mem_filter.1 ho
      exact ⟨o, homem.1, by simpa using homem.2, hos⟩
    · rintro ⟨o, ho, hsup, hsm⟩
      have homatched : o ∈ matchedOrders sid orders :=
        List.mem_filter.2 ⟨ho, by simp [hsup]⟩
      have hk : k ∈ groupKeys (matchedOrders sid orders) :=
        (mem_groupKeys _ k).2 ⟨o, homatched, hsm⟩
      exact ⟨mkRow (matchedOrders sid orders) k,
        hperm.mem_iff.2 (List.mem_map.2 ⟨k, hk, rfl⟩), rfl⟩
  · intro r hr
    have hr2 : r ∈ groupRows (matchedOrders sid orders) := hperm.mem_iff.1 hr
    obtain ⟨k, hk, rfl⟩ := List.mem_map.1 hr2
    have hg : (matchedOrders sid orders).filter (fun o => o.supermarket == k) =
        orders.filter (fun o => o.supplier == sid && o.supermarket == k) :=
      group_filter_eq sid k orders
    have hne : (matchedOrders sid orders).filter
        (fun o => o.supermarket == k) ≠ [] := by
      obtain ⟨o, ho, hos⟩ := (mem_groupKeys _ k).1 hk
      intro hnil
      have : o ∈ (matchedOrders sid orders).filter
          (fun o => o.supermarket == k) :=
        List.mem_filter.2 ⟨ho, by simp [hos]⟩
      rw [hnil] at this
      simp at this
    refine ⟨?_, ?_, ?_, ?_⟩
    · show ((matchedOrders sid orders).filter
          (fun o => o.supermarket == k)).length =
        (orders.filter
          (fun o => o.supplier == sid && o.supermarket == k)).length
      rw [hg]
    · show (((matchedOrders sid orders).filter
          (fun o => o.supermarket == k)).map (fun o => o.totalAmount)).sum =
        ((orders.filter
          (fun o => o.supplier == sid && o.supermarket == k)).map
            (fun o => o.totalAmount)).sum
      rw [hg]
    · show ∀ o ∈ orders.filter
          (fun o => o.supplier == sid && o.supermarket == k),
        o.createdAt ≤ (((matchedOrders sid orders).filter
          (fun o => o.supermarket == k)).map (fun o => o.createdAt)).foldr max 0
      intro o ho
      rw [← hg] at ho
      exact le_foldr_max _ o.createdAt (List.mem_map.2 ⟨o, ho, rfl⟩)
    · show ∃ o ∈ orders.filter
          (fun o => o.supplier == sid && o.supermarket == k),
        o.createdAt = (((matchedOrders sid orders).filter
          (fun o => o.supermarket == k)).map (fun o => o.createdAt)).foldr max 0
      have hmax := foldr_max_mem (((matchedOrders sid orders).filter
          (fun o => o.supermarket == k)).map (fun o => o.createdAt))
        (by simpa using hne)
      obtain ⟨o, ho, hoc⟩ := List.mem_map.1 hmax
      rw [← hg]
      exact ⟨o, ho, hoc⟩
  · exact List.sorted_insertionSort rowRevGe _

/-- Witness for C2: on the spec's SUP1 example, SM1 appears among the result
rows (derived from its order), and the row ids are pairwise distinct. -/
theorem supplier_aggregation_correct_witness :
    (∃ r ∈ aggregateRows "SUP1" ordersEx, r._id = "SM1") ∧
      ((aggregateRows "SUP1" ordersEx).map (fun r => r._id)).Nodup :=
  ⟨(supplier_aggregation_correct "SUP1" ordersEx).2.1 "SM1" |>.2
      ⟨⟨"SUP1", "SM1", 100, 1⟩, by simp [ordersEx], rfl, rfl⟩,
    (supplier_aggregation_correct "SUP1" ordersEx).1⟩

/-- C9: the buyer-directory join substitutes the placeholder name
`"Unknown"` and empty contact fields for any group whose buyer record is
missing, while still returning that group's computed count, revenue and
last-order date; a missing buyer record never aborts the aggregation or
omits the other groups (the response keeps one summary per group, in
order). -/
theorem aggregation_partial_lookup :
    ∀ (sid : String) (orders : List OrderDoc) (dir : List Supermarket),
      (getSupplierBuyers sid orders dir).length =
          (aggregateRows sid orders).length ∧
      List.Forall₂ (fun (r : BuyerRow) (s : BuyerSummary) =>
          s.supermarketId = r._id ∧ s.totalOrders = r.totalOrders ∧
          s.totalRevenue = r.totalRevenue ∧ s.lastOrderDate = r.lastOrderDate ∧
          ((∀ m ∈ dir, ¬ m._id = r._id) →
            s.name = "Unknown" ∧ s.contactEmail = "" ∧ s.address = ""))
        (aggregateRows sid orders) (getSupplierBuyers sid orders dir) := by
  intro sid orders dir
  constructor
  · simp [getSupplierBuyers]
  · have hdef : getSupplierBuyers sid orders dir =
        (aggregateRows sid orders).map (fun r =>
          let sm := mapGet (dir.filter (fun m =>
            ((aggregateRows sid orders).map (fun r2 => r2._id)).contains m._id)) r._id
          ⟨r._id, strOr (sm.map (fun m => m.name)) ("Unknown"),
            strOr (sm.map (fun m => m.contactEmail)) "",
            strOr (sm.map (fun m => m.address)) "",
            r.totalOrders, r.totalRevenue, r.lastOrderDate⟩) := rfl
    rw [hdef]
    apply forall₂_map_self
    intro r _
    refine ⟨rfl, rfl, rfl, rfl, ?_⟩
    intro hnone
    have hmg : mapGet (dir.filter (fun m =>
        ((aggregateRows sid orders).map (fun r2 => r2._id)).contains m._id))
        r._id = none := by
      unfold mapGet
      rw [List.find?_eq_none]
      intro m hm
      have hmem : m ∈ dir := (List.mem_filter.1 (List.mem_reverse.1 hm)).1
      simp [hnone m hmem]
    refine ⟨?_, ?_, ?_⟩
    · show strOr ((mapGet (dir.filter (fun m =>
          ((aggregateRows sid orders).map (fun r2 => r2._id)).contains m._id))
            r._id).map (fun m => m.name)) ("Unknown") = "Unknown"
      rw [hmg]
      rfl
    · show strOr ((mapGet (dir.filter (fun m =>
          ((aggregateRows sid orders).map (fun r2 => r2._id)).contains m._id))
            r._id).map (fun m => m.contactEmail)) "" = ""
      rw [hmg]
      rfl
    · show strOr ((mapGet (dir.filter (fun m =>
          ((aggregateRows sid orders).map (fun r2 => r2._id)).contains m._id))
            r._id).map (fun m => m.address)) "" = ""
      rw [hmg]
      rfl

/-- Witness for C9: with an empty buyer directory on the SUP1 example the
response still has one summary per group, and the per-group facts hold. -/
theorem aggregation_partial_lookup_witness :
    (getSupplierBuyers "SUP1" ordersEx []).length =
      (aggregateRows "SUP1" ordersEx).length :=
  (aggregation_partial_lookup "SUP1" ordersEx []).1

end B2B
